import Mathlib

/-!
Verification development for the go-project-config repository.

The Go sources under `cfg/` are shallowly embedded: pure string
manipulation becomes structural functions on `List Char`, the injected
providers (file system, template processor, formatter, line reader) become
records of outcome functions mirroring the repository's interfaces, and
each generator function is translated control-flow-for-control-flow,
returning its Go result pair together with a trace of the effectful calls
it made.
-/

set_option maxRecDepth 100000

namespace Cfg

/-! ## ASCII casing primitives

The Go code uses `strings.ToLower` and `golang.org/x/text`'s
`cases.Title(language.Und)`.  Both are Unicode-aware; they are modelled
here on their ASCII fragment, which is the fragment exercised by the
repository's own tests and templates.  The casing tables are concrete
association lists so that every fact about them is decidable.
-/

/-- The 26 ASCII upper/lower case pairs, modelling the ASCII fragment of
Unicode simple case mapping. -/
def caseTable : List (Char × Char) :=
  [('A', 'a'), ('B', 'b'), ('C', 'c'), ('D', 'd'), ('E', 'e'), ('F', 'f'),
   ('G', 'g'), ('H', 'h'), ('I', 'i'), ('J', 'j'), ('K', 'k'), ('L', 'l'),
   ('M', 'm'), ('N', 'n'), ('O', 'o'), ('P', 'p'), ('Q', 'q'), ('R', 'r'),
   ('S', 's'), ('T', 't'), ('U', 'u'), ('V', 'v'), ('W', 'w'), ('X', 'x'),
   ('Y', 'y'), ('Z', 'z')]

/-- Lower-case an ASCII character (identity off the table), modelling
`unicode.ToLower` on ASCII. -/
def asciiLowerChar (c : Char) : Char :=
  match caseTable.find? (fun p => p.1 = c) with
  | some p => p.2
  | none => c

/-- Upper-case an ASCII character (identity off the table), modelling
`unicode.ToUpper` on ASCII. -/
def asciiUpperChar (c : Char) : Char :=
  match caseTable.find? (fun p => p.2 = c) with
  | some p => p.1
  | none => c

/-- `strings.ToLower` on ASCII, character list form. -/
def asciiLower (l : List Char) : List Char := l.map asciiLowerChar

/-- Is `c` an ASCII letter? -/
def isAsciiAlpha (c : Char) : Bool :=
  caseTable.any (fun p => p.1 = c || p.2 = c)

/-- Is `c` an ASCII digit? -/
def isAsciiDigit (c : Char) : Bool :=
  ['0', '1', '2', '3', '4', '5', '6', '7', '8', '9'].contains c

/-- State of the title caser while walking a string: outside a word,
inside a word whose first cased character has not yet been seen, or
inside a word whose first cased character has been title-cased. -/
inductive TState where
  | out : TState
  | pending : TState
  | done : TState
deriving DecidableEq

/-- How the title caser renders one character: a letter is upper-cased
when it is the first cased character of its word and lower-cased
otherwise; every other character passes through unchanged. -/
def titleStep (st : TState) (c : Char) : Char :=
  if isAsciiAlpha c then
    match st with
    | .done => asciiLowerChar c
    | _ => asciiUpperChar c
  else c

/-- How the title caser's state evolves past one character: a letter
marks the word's cased character as seen, a digit starts or continues a
word, anything else ends the word. -/
def titleNext (st : TState) (c : Char) : TState :=
  if isAsciiAlpha c then .done
  else if isAsciiDigit c then (match st with | .out => .pending | s => s)
  else .out

/-- Model of `cases.Title(language.Und)` from golang.org/x/text on its
ASCII fragment: words are maximal runs of letters and digits; the first
cased (letter) character of each word is upper-cased and the remaining
letters of the word are lower-cased; all other characters pass through
unchanged and terminate the current word. -/
def titleAsciiGo : TState → List Char → List Char
  | _, [] => []
  | st, c :: cs => titleStep st c :: titleAsciiGo (titleNext st c) cs

/-! ## Splitting -/

/-- Split a character list at every occurrence of `sep`, modelling
`strings.Split(s, sep)` for a one-character separator.  The empty input
yields one empty token, as in Go. -/
def splitOnSep (sep : Char) : List Char → List (List Char)
  | [] => [[]]
  | c :: cs =>
    let rest := splitOnSep sep cs
    if c = sep then
      [] :: rest
    else
      match rest with
      | [] => [[c]]
      | r :: rs => (c :: r) :: rs

/-- Find the first occurrence of `sep` and return the parts before and
after it, or `none` when `sep` does not occur. -/
def splitFirst (sep : Char) : List Char → Option (List Char × List Char)
  | [] => none
  | c :: cs =>
    if c = sep then
      some ([], cs)
    else
      match splitFirst sep cs with
      | none => none
      | some (k, v) => some (c :: k, v)

/-- `strings.SplitN(s, sep, 2)` for a one-character separator: the whole
input when `sep` is absent, otherwise the two parts around the first
occurrence. -/
def splitN2 (sep : Char) (l : List Char) : List (List Char) :=
  match splitFirst sep l with
  | none => [l]
  | some (k, v) => [k, v]

/-- Concatenation of a list of strings with no separator, modelling
`strings.Join(parts, "")`. -/
def concatAll : List String → String
  | [] => ""
  | s :: rest => s ++ concatAll rest

/-! ## The Name Formatter (cfg/string.go) -/

/-- `toCamelCase` from cfg/string.go: split the input on underscores,
lower-case each part and run it through the title caser, then join the
parts with no separator. -/
def toCamelCase (s : String) : String :=
  let parts := splitOnSep '_' s.data
  let parts := parts.map (fun part => titleAsciiGo .out (asciiLower part))
  String.mk parts.flatten

/-- Upper-case the first character of a token, leaving the rest
untouched. -/
def capFirst : List Char → List Char
  | [] => []
  | c :: cs => asciiUpperChar c :: cs

/-- The formula the specification states for the Name Formatter: split on
underscores, lower-case each token, capitalize each token's first
character, concatenate.  Stated from the spec's words for comparison with
`toCamelCase`. -/
def camelSpec (s : String) : String :=
  let parts := splitOnSep '_' s.data
  String.mk (parts.map (fun part => capFirst (asciiLower part))).flatten

/-! ## Errors and effect traces

Go errors are modelled by their message together with the one predicate
the generator tests on them, `os.IsExist`.  `errors.Wrapf(err, ctx)`
produces the message `ctx ++ ": " ++ err.msg`, exactly the strings the
repository's tests assert on. -/

/-- A Go error value: its rendered message plus whether `os.IsExist`
holds of it. -/
structure GoError where
  msg : String
  isExist : Bool
deriving DecidableEq

/-- `errors.Wrapf(err, ctx)`: prefix the context onto the message. -/
def wrapErr (ctx : String) (e : GoError) : GoError :=
  { e with msg := ctx ++ ": " ++ e.msg }

/-- One effectful call performed by the generator, recorded in order of
occurrence. -/
inductive Event where
  | mkdirCall (dir : String) : Event
  | createFile (name : String) : Event
  | openFile (name : String) : Event
  | readFileEv (name : String) : Event
  | writeFileEv (name : String) : Event
  | scanLine : Event
deriving DecidableEq

/-- Does the event create or write a file on disk? -/
def Event.isFileWrite : Event → Bool
  | .createFile _ => true
  | .writeFileEv _ => true
  | _ => false

/-- The value-error pair a Go function returns, together with the trace
of effectful calls it performed. -/
structure StepResult (α : Type) where
  val : α
  err : Option GoError
  trace : List Event
deriving DecidableEq

/-! ## The injected providers (cfg/fs.go, cfg/template.go, formatter,
cfg/linereader.go)

Each interface the generator depends on is modelled as a record of
outcome functions: an arbitrary implementation decides, per call, whether
the call fails and with which error, exactly as the repository's mock
implementations do.  The line reader is modelled by the sequence of lines
it yields and the error `Err()` reports after exhaustion. -/

/-- The `fileSystem` interface of cfg/fs.go, as outcome functions. -/
structure fileSystem where
  Mkdir : String → Option GoError
  Create : String → Option GoError
  Open : String → Option GoError
  ReadFile : String → Except GoError String
  WriteFile : String → String → Nat → Option GoError

/-- The `templateProcessor` interface: `Parse(name, text)` either fails
or yields an executor whose `Execute(file, values)` outcome is modelled
as a function of the template name and the substitution values. -/
structure templateProcessor where
  Parse : String → String → Option GoError
  Execute : String → List (String × String) → Option GoError

/-- The `formatter` interface of the code-formatter file:
`Source(src)` either fails or yields the formatted text. -/
structure formatterModel where
  Source : String → Except GoError String

/-- The `lineReader` interface of cfg/linereader.go, modelled by the
lines it yields before `Scan` returns false and the value of `Err()`
after exhaustion. -/
structure lineReaderModel where
  lines : List String
  scanErr : Option GoError

/-- The package-level providers of cfg/cfg.go (`fsProvider`,
`templateProcessorProvider`, `formatterProvider`, `lr`), gathered into
one record and passed explicitly. -/
structure Providers where
  fsProvider : fileSystem
  templateProcessorProvider : templateProcessor
  formatterProvider : formatterModel
  lr : lineReaderModel

/-! ## Constants of cfg/cfg.go and the template file -/

def configReadFileName : String := "config.go"

def configReaderUnitTestFileName : String := "config_test.go"

def envFileName : String := ".env"

def configReaderPkgPlaceHolder : String := "ConfigReaderPkgName"

def configStructTemplateName : String := "ConfigStruct"

/-- The default `Config` struct used when no .env file is supplied. -/
def defaultConfigStructTemplate : String :=
  "// Config holds all configuration needed by this app.\ntype Config struct \x7b\n\tSampleEnvVar string `envconfig:\"SAMPLE_ENV_VAR\" required:\"true\"`\n\x7d"

def configReaderUnitTestFileTemplateName : String := "configReaderUnitTestFile"

def configReaderMainFileTemplateName : String := "configReaderMainFile"

def envFileTemplateName : String := "envFile"

def envFileTemplate : String := "SAMPLE_ENV_VAR=some value"

/-- Template body for the generated main source file (part_003). -/
def configReaderMainFileTemplatePlaceHolder : String :=
  "package \x7b\x7b .ConfigReaderPkgName \x7d\x7d\n\nimport (\n\t\"github.com/joho/godotenv\"\n\t\"github.com/kelseyhightower/envconfig\"\n\t\"github.com/pkg/errors\"\n)\n\n\x7b\x7b .ConfigStruct \x7d\x7d\n\n// For ease of unit testing.\nvar (\n\tgodotenvLoad     = godotenv.Load\n\tenvconfigProcess = envconfig.Process\n)\n\n// Read reads configuration from environment variables.\n// It assumes that an '.env' file is present at current path.\nfunc Read() (*Config, error) \x7b\n\tif err := godotenvLoad(); err != nil \x7b\n\t\treturn nil, errors.Wrap(err, \"loading env vars from .env file\")\n\t\x7d\n\tconfig := new(Config)\n\tif err := envconfigProcess(\"\", config); err != nil \x7b\n\t\treturn nil, errors.Wrap(err, \"processing env vars\")\n\t\x7d\n\treturn config, nil\n\x7d\n\n// ReadFromEnvFile reads configuration from the specified environment file.\nfunc ReadFromEnvFile(envFilePath string) (*Config, error) \x7b\n\tif err := godotenvLoad(envFilePath); err != nil \x7b\n\t\treturn nil, errors.Wrapf(err, \"loading env vars from %s\", envFilePath)\n\t\x7d\n\tconfig := new(Config)\n\tif err := envconfigProcess(\"\", config); err != nil \x7b\n\t\treturn nil, errors.Wrap(err, \"processing env vars\")\n\t\x7d\n\treturn config, nil\n\x7d\n"

/-- Template body for the generated unit test file (part_003). -/
def configReaderUnitTestFileTemplate : String :=
  "package \x7b\x7b .ConfigReaderPkgName \x7d\x7d\n\nimport (\n\t\"errors\"\n\t\"testing\"\n\n\t\"github.com/stretchr/testify/require\"\n)\n\nfunc TestRead(t *testing.T) \x7b\n\ttestCases := []struct \x7b\n\t\tname                   string\n\t\tmockedGodotenvLoad     func(filenames ...string) (err error)\n\t\tmockedEnvconfigProcess func(prefix string, spec interface\x7b\x7d) error\n\t\texpectedError          error\n\t\x7d\x7b\n\t\t\x7b\n\t\t\tname: \"happy path\",\n\t\t\tmockedGodotenvLoad: func(filenames ...string) (err error) \x7b\n\t\t\t\treturn nil\n\t\t\t\x7d,\n\t\t\tmockedEnvconfigProcess: func(prefix string, spec interface\x7b\x7d) error \x7b\n\t\t\t\treturn nil\n\t\t\t\x7d,\n\t\t\x7d,\n\t\t\x7b\n\t\t\tname: \"error loading env vars\",\n\t\t\tmockedGodotenvLoad: func(filenames ...string) (err error) \x7b\n\t\t\t\treturn errors.New(\"random error\")\n\t\t\t\x7d,\n\t\t\texpectedError: errors.New(\"loading env vars from .env file: random error\"),\n\t\t\x7d,\n\t\t\x7b\n\t\t\tname: \"error processing env vars\",\n\t\t\tmockedGodotenvLoad: func(filenames ...string) (err error) \x7b\n\t\t\t\treturn nil\n\t\t\t\x7d,\n\t\t\tmockedEnvconfigProcess: func(prefix string, spec interface\x7b\x7d) error \x7b\n\t\t\t\treturn errors.New(\"random error\")\n\t\t\t\x7d,\n\t\t\texpectedError: errors.New(\"processing env vars: random error\"),\n\t\t\x7d,\n\t\x7d\n\tfor _, tc := range testCases \x7b\n\t\tt.Run(tc.name, func(t *testing.T) \x7b\n\t\t\tgodotenvLoad = tc.mockedGodotenvLoad\n\t\t\tenvconfigProcess = tc.mockedEnvconfigProcess\n\t\t\tconfig, err := Read()\n\t\t\tif err != nil \x7b\n\t\t\t\tif tc.expectedError == nil \x7b\n\t\t\t\t\tt.Fatalf(\"expected no error, got %v\", err)\n\t\t\t\t\x7d\n\t\t\t\trequire.Nil(t, config)\n\t\t\t\trequire.Equal(t, tc.expectedError.Error(), err.Error())\n\t\t\t\x7d else \x7b\n\t\t\t\tif tc.expectedError != nil \x7b\n\t\t\t\t\tt.Fatalf(\"expected error, got nil\")\n\t\t\t\t\x7d\n\t\t\t\trequire.NotNil(t, config)\n\t\t\t\x7d\n\t\t\x7d)\n\t\x7d\n\x7d\n\nfunc TestReadFromEnvFile(t *testing.T) \x7b\n\ttestCases := []struct \x7b\n\t\tname                   string\n\t\tmockedGodotenvLoad     func(filenames ...string) (err error)\n\t\tmockedEnvconfigProcess func(prefix string, spec interface\x7b\x7d) error\n\t\texpectedError          error\n\t\x7d\x7b\n\t\t\x7b\n\t\t\tname: \"happy path\",\n\t\t\tmockedGodotenvLoad: func(filenames ...string) (err error) \x7b\n\t\t\t\treturn nil\n\t\t\t\x7d,\n\t\t\tmockedEnvconfigProcess: func(prefix string, spec interface\x7b\x7d) error \x7b\n\t\t\t\treturn nil\n\t\t\t\x7d,\n\t\t\x7d,\n\t\t\x7b\n\t\t\tname: \"error loading env vars\",\n\t\t\tmockedGodotenvLoad: func(filenames ...string) (err error) \x7b\n\t\t\t\treturn errors.New(\"random error\")\n\t\t\t\x7d,\n\t\t\texpectedError: errors.New(\"loading env vars from path/to/.env: random error\"),\n\t\t\x7d,\n\t\t\x7b\n\t\t\tname: \"error processing env vars\",\n\t\t\tmockedGodotenvLoad: func(filenames ...string) (err error) \x7b\n\t\t\t\treturn nil\n\t\t\t\x7d,\n\t\t\tmockedEnvconfigProcess: func(prefix string, spec interface\x7b\x7d) error \x7b\n\t\t\t\treturn errors.New(\"random error\")\n\t\t\t\x7d,\n\t\t\texpectedError: errors.New(\"processing env vars: random error\"),\n\t\t\x7d,\n\t\x7d\n\tfor _, tc := range testCases \x7b\n\t\tt.Run(tc.name, func(t *testing.T) \x7b\n\t\t\tgodotenvLoad = tc.mockedGodotenvLoad\n\t\t\tenvconfigProcess = tc.mockedEnvconfigProcess\n\t\t\tconfig, err := ReadFromEnvFile(\"path/to/.env\")\n\t\t\tif err != nil \x7b\n\t\t\t\tif tc.expectedError == nil \x7b\n\t\t\t\t\tt.Fatalf(\"expected no error, got %v\", err)\n\t\t\t\t\x7d\n\t\t\t\trequire.Nil(t, config)\n\t\t\t\trequire.Equal(t, tc.expectedError.Error(), err.Error())\n\t\t\t\x7d else \x7b\n\t\t\t\tif tc.expectedError != nil \x7b\n\t\t\t\t\tt.Fatalf(\"expected error, got nil\")\n\t\t\t\t\x7d\n\t\t\t\trequire.NotNil(t, config)\n\t\t\t\x7d\n\t\t\x7d)\n\t\x7d\n\x7d\n"

/-! ## The Struct-Field Synthesizer (cfg/cfg.go, generateStructFromEnvFile) -/

/-- The header the synthesizer writes before the field lines: the
explanatory comment, the struct opening, and the struct-tag TODO note. -/
def structHeaderText : String :=
  "// Config holds all configuration needed by this app.\n" ++
    "type Config struct \x7b\n" ++
    "// TODO: see https://github.com/kelseyhightower/envconfig for all available options\n // for struct tags.\n"

/-- The field declaration line emitted for source key `key`: the
identifier from the Name Formatter, the fixed placeholder type
`interface` with empty braces, and the `envconfig` annotation carrying
the original key marked required. -/
def fieldDeclFor (key : String) : String :=
  "\t" ++ toCamelCase key ++ " interface\x7b\x7d `envconfig:\"" ++ key ++
    "\" required:\"true\"` // TODO: set the correct data type.\n"

/-- The text the synthesizer's loop appends for one input line: split on
the first `=` into at most two parts; when the split does not yield
exactly two parts the line is skipped (nothing is appended), otherwise
the field declaration for the left part is appended. -/
def envLineField (line : String) : String :=
  match splitN2 '=' line.data with
  | [key, _] => fieldDeclFor (String.mk key)
  | _ => ""

/-- The source keys of the lines the synthesizer's loop accepts: the text
before the first `=` of every line containing an `=`. -/
def envKeys (lines : List String) : List String :=
  lines.filterMap (fun l => (splitFirst '=' l.data).map (fun kv => String.mk kv.1))

/-- `generateStructFromEnvFile` of cfg/cfg.go: write the header, loop
over the scanned lines appending a field per valid line, close the
struct, then check the line reader's `Err()`; a non-nil error discards
the text and returns the error wrapped with "scanning". -/
def generateStructFromEnvFile (lines : List String) (scanErr : Option GoError) :
    String × Option GoError :=
  let sb := structHeaderText
  let sb := lines.foldl (fun sb line => sb ++ envLineField line) sb
  let sb := sb ++ "\x7d\n"
  match scanErr with
  | some e => ("", some (wrapErr "scanning" e))
  | none => (sb, none)

/-! ## The generator pipeline (cfg/cfg.go) -/

/-- `writeFileFromTemplate` of cfg/cfg.go: parse the named template, then
execute it against the template values, wrapping either failure with the
template name. -/
def writeFileFromTemplate (tp : templateProcessor)
    (templateName templateText : String)
    (templateValues : List (String × String)) : Option GoError :=
  match tp.Parse templateName templateText with
  | some e => some (wrapErr ("parsing template " ++ templateName) e)
  | none =>
    match tp.Execute templateName templateValues with
    | some e => some (wrapErr ("executing template " ++ templateName) e)
    | none => none

/-- `formatGoFile` of the code-formatter file: read the file back,
format its source, and write the formatted text, wrapping each failure
with the file path (permission bits 0o644 as in the source). -/
def formatGoFile (p : Providers) (filePath : String) : StepResult Unit :=
  match p.fsProvider.ReadFile filePath with
  | .error e =>
    ⟨(), some (wrapErr ("reading go file " ++ filePath) e), [.readFileEv filePath]⟩
  | .ok source =>
    match p.formatterProvider.Source source with
    | .error e =>
      ⟨(), some (wrapErr ("formating go file " ++ filePath) e), [.readFileEv filePath]⟩
    | .ok formattedSrc =>
      match p.fsProvider.WriteFile filePath formattedSrc 0o644 with
      | some e =>
        ⟨(), some (wrapErr ("writing go file " ++ filePath) e),
          [.readFileEv filePath, .writeFileEv filePath]⟩
      | none => ⟨(), none, [.readFileEv filePath, .writeFileEv filePath]⟩

/-- `generateConfigStructFromEnvFile` of cfg/cfg.go: open the env file
(wrapping an open failure with the path, before any scanning), then run
the synthesizer over the line reader, wrapping its failure with the
path.  One `scanLine` event is recorded per line the reader yields. -/
def generateConfigStructFromEnvFile (p : Providers) (envFilePath : String) :
    StepResult String :=
  match p.fsProvider.Open envFilePath with
  | some e =>
    ⟨"", some (wrapErr ("opening env file " ++ envFilePath) e), [.openFile envFilePath]⟩
  | none =>
    let scans := p.lr.lines.map (fun _ => Event.scanLine)
    match generateStructFromEnvFile p.lr.lines p.lr.scanErr with
    | (_, some e) =>
      ⟨"", some (wrapErr ("generating struct from env file " ++ envFilePath) e),
        .openFile envFilePath :: scans⟩
    | (s, none) => ⟨s, none, .openFile envFilePath :: scans⟩

/-- The tail of `generateConfigReaderMainFile` after the output file was
created and the struct text decided: execute the main-file template with
the package name and struct text, then format the written file, and
return the file path on success. -/
def writeMainAndFormat (p : Providers) (packageName structText : String)
    (preTrace : List Event) : StepResult String :=
  let configReaderFilePath := packageName ++ "/" ++ configReadFileName
  let templateValues :=
    [(configReaderPkgPlaceHolder, packageName), (configStructTemplateName, structText)]
  match writeFileFromTemplate p.templateProcessorProvider
      configReaderMainFileTemplateName configReaderMainFileTemplatePlaceHolder
      templateValues with
  | some e => ⟨"", some e, preTrace⟩
  | none =>
    let f := formatGoFile p configReaderFilePath
    match f.err with
    | some e => ⟨"", some e, preTrace ++ f.trace⟩
    | none => ⟨configReaderFilePath, none, preTrace ++ f.trace⟩

/-- `generateConfigReaderMainFile` of cfg/cfg.go: create
`<packageName>/config.go`; when an env-file path is supplied synthesize
the struct from it (aborting on failure), otherwise use the default
struct template; then write from the template and format the file. -/
def generateConfigReaderMainFile (p : Providers) (packageName envFilePath : String) :
    StepResult String :=
  let configReaderFilePath := packageName ++ "/" ++ configReadFileName
  match p.fsProvider.Create configReaderFilePath with
  | some e =>
    ⟨"", some (wrapErr ("creating file " ++ configReaderFilePath) e),
      [.createFile configReaderFilePath]⟩
  | none =>
    if envFilePath ≠ "" then
      let s := generateConfigStructFromEnvFile p envFilePath
      match s.err with
      | some e => ⟨"", some e, .createFile configReaderFilePath :: s.trace⟩
      | none =>
        writeMainAndFormat p packageName s.val
          (.createFile configReaderFilePath :: s.trace)
    else
      writeMainAndFormat p packageName defaultConfigStructTemplate
        [.createFile configReaderFilePath]

/-- `generateConfigReaderUnitTestFile` of cfg/cfg.go: create
`<packageName>/config_test.go` and write it from the unit test
template. -/
def generateConfigReaderUnitTestFile (p : Providers) (packageName : String) :
    StepResult String :=
  let path := packageName ++ "/" ++ configReaderUnitTestFileName
  match p.fsProvider.Create path with
  | some e =>
    ⟨"", some (wrapErr ("creating file " ++ path) e), [.createFile path]⟩
  | none =>
    match writeFileFromTemplate p.templateProcessorProvider
        configReaderUnitTestFileTemplateName configReaderUnitTestFileTemplate
        [(configReaderPkgPlaceHolder, packageName)] with
    | some e => ⟨"", some e, [.createFile path]⟩
    | none => ⟨path, none, [.createFile path]⟩

/-- `generateEnvFile` of cfg/cfg.go: create the sample `.env` file and
write it from the env-file template (no template values). -/
def generateEnvFile (p : Providers) : StepResult Unit :=
  match p.fsProvider.Create envFileName with
  | some e =>
    ⟨(), some (wrapErr ("creating file " ++ envFileName) e), [.createFile envFileName]⟩
  | none =>
    match writeFileFromTemplate p.templateProcessorProvider
        envFileTemplateName envFileTemplate [] with
    | some e => ⟨(), some e, [.createFile envFileName]⟩
    | none => ⟨(), none, [.createFile envFileName]⟩

/-- `generateConfigReaderFiles` of cfg/cfg.go: make the package
directory (an "already exists" error is ignored, any other error is
wrapped and aborts with no file touched), then write the main file with
the default struct, the unit test file, and the sample `.env` file,
returning their three paths in order. -/
def generateConfigReaderFiles (p : Providers) (packageName : String) :
    StepResult (List String) :=
  let rest : StepResult (List String) :=
    let m := generateConfigReaderMainFile p packageName ""
    match m.err with
    | some e => ⟨[], some e, Event.mkdirCall packageName :: m.trace⟩
    | none =>
      let u := generateConfigReaderUnitTestFile p packageName
      match u.err with
      | some e => ⟨[], some e, Event.mkdirCall packageName :: (m.trace ++ u.trace)⟩
      | none =>
        let ev := generateEnvFile p
        match ev.err with
        | some e =>
          ⟨[], some e, Event.mkdirCall packageName :: (m.trace ++ u.trace ++ ev.trace)⟩
        | none =>
          ⟨[m.val, u.val, envFileName], none,
            Event.mkdirCall packageName :: (m.trace ++ u.trace ++ ev.trace)⟩
  match p.fsProvider.Mkdir packageName with
  | some e =>
    if e.isExist then rest
    else ⟨[], some (wrapErr ("creating dir " ++ packageName) e), [.mkdirCall packageName]⟩
  | none => rest

/-- `generateConfigReaderFilesFromEnvFile` of cfg/cfg.go: like
`generateConfigReaderFiles` but the main file's struct is synthesized
from the supplied env file, and no sample `.env` file is written;
returns the two paths in order. -/
def generateConfigReaderFilesFromEnvFile (p : Providers)
    (packageName envFilePath : String) : StepResult (List String) :=
  let rest : StepResult (List String) :=
    let m := generateConfigReaderMainFile p packageName envFilePath
    match m.err with
    | some e => ⟨[], some e, Event.mkdirCall packageName :: m.trace⟩
    | none =>
      let u := generateConfigReaderUnitTestFile p packageName
      match u.err with
      | some e => ⟨[], some e, Event.mkdirCall packageName :: (m.trace ++ u.trace)⟩
      | none =>
        ⟨[m.val, u.val], none, Event.mkdirCall packageName :: (m.trace ++ u.trace)⟩
  match p.fsProvider.Mkdir packageName with
  | some e =>
    if e.isExist then rest
    else ⟨[], some (wrapErr ("creating dir " ++ packageName) e), [.mkdirCall packageName]⟩
  | none => rest

/-- `generator.GenerateConfigPackage`: delegate and return nil paths on
error. -/
def GenerateConfigPackage (p : Providers) (packageName : String) :
    StepResult (List String) :=
  let r := generateConfigReaderFiles p packageName
  match r.err with
  | some e => ⟨[], some e, r.trace⟩
  | none => ⟨r.val, none, r.trace⟩

/-- `generator.GenerateConfigPackageFromEnvFile`: delegate and return
nil paths on error. -/
def GenerateConfigPackageFromEnvFile (p : Providers)
    (packageName envFilePath : String) : StepResult (List String) :=
  let r := generateConfigReaderFilesFromEnvFile p packageName envFilePath
  match r.err with
  | some e => ⟨[], some e, r.trace⟩
  | none => ⟨r.val, none, r.trace⟩

/-! ## Concrete provider instances for concrete evaluations -/

/-- A file system on which every operation succeeds. -/
def okFS : fileSystem :=
  { Mkdir := fun _ => none
    Create := fun _ => none
    Open := fun _ => none
    ReadFile := fun _ => .ok ""
    WriteFile := fun _ _ _ => none }

/-- A template processor on which parsing and execution always
succeed. -/
def okTP : templateProcessor :=
  { Parse := fun _ _ => none, Execute := fun _ _ => none }

/-- A formatter that accepts every input unchanged. -/
def okFmt : formatterModel := { Source := fun s => .ok s }

/-- The line reader of the repository's happy-path test: one malformed
line, one valid line, no scan error. -/
def sampleLR : lineReaderModel :=
  { lines := ["invalid", "var=value"], scanErr := none }

/-- Providers on which every step succeeds. -/
def happyProviders : Providers := ⟨okFS, okTP, okFmt, sampleLR⟩

/-- Providers whose directory creation fails with a plain (non-exist)
error, as in the repository's mkdir-error test. -/
def mkdirFailProviders : Providers :=
  { happyProviders with
    fsProvider := { okFS with Mkdir := fun _ => some ⟨"mkdir error", false⟩ } }

/-- Providers whose directory creation fails with an "already exists"
error. -/
def mkdirExistProviders : Providers :=
  { happyProviders with
    fsProvider := { okFS with Mkdir := fun _ => some ⟨"dir exists", true⟩ } }

/-- Providers whose env-file open fails, as in the repository's
open-error test. -/
def openFailProviders : Providers :=
  { happyProviders with
    fsProvider := { okFS with Open := fun _ => some ⟨"open error", false⟩ } }

/-- The same providers with directory creation always succeeding. -/
def setMkdirOk (p : Providers) : Providers :=
  { p with fsProvider := { p.fsProvider with Mkdir := fun _ => none } }

/-! ## Basic concrete evaluations -/

example : toCamelCase "sample_env_var" = "SampleEnvVar" := by decide
example : toCamelCase "a" = "A" := by decide
example : toCamelCase "" = "" := by decide
example : toCamelCase "DATABASE_URL" = "DatabaseUrl" := by decide
example : toCamelCase "a b" = "A B" := by decide
example : camelSpec "a b" = "A b" := by decide
example :
    (GenerateConfigPackage happyProviders "config").val =
      ["config/config.go", "config/config_test.go", ".env"] := by decide
example :
    (GenerateConfigPackageFromEnvFile happyProviders "config" ".env-local").val =
      ["config/config.go", "config/config_test.go"] := by decide
example : (GenerateConfigPackage happyProviders "config").err = none := by decide
example :
    (GenerateConfigPackage mkdirFailProviders "config").err =
      some ⟨"creating dir config: mkdir error", false⟩ := by decide

/-! ## Lemmas about splitting -/

theorem splitOnSep_ne_nil (sep : Char) (l : List Char) : splitOnSep sep l ≠ [] := by
  induction l with
  | nil => simp [splitOnSep]
  | cons c cs ih =>
    simp only [splitOnSep]
    split
    · simp
    · split
      · simp
      · simp

theorem flatten_splitOnSep (sep : Char) (l : List Char) :
    (splitOnSep sep l).flatten = l.filter (fun c => !(c == sep)) := by
  induction l with
  | nil => simp [splitOnSep]
  | cons c cs ih =>
    simp only [splitOnSep]
    split
    · next hc =>
      subst hc
      simp [List.filter, ih]
    · next hc =>
      cases hsp : splitOnSep sep cs with
      | nil => exact absurd hsp (splitOnSep_ne_nil sep cs)
      | cons r rs =>
        rw [hsp] at ih
        have hfl : ((c :: r) :: rs).flatten = c :: (r :: rs).flatten := by
          simp [List.flatten_cons]
        rw [hfl, ih]
        simp [List.filter_cons, hc]

theorem mem_of_mem_splitOnSep (sep : Char) (l : List Char) (part : List Char)
    (hp : part ∈ splitOnSep sep l) (c : Char) (hc : c ∈ part) : c ∈ l ∧ c ≠ sep := by
  have : c ∈ (splitOnSep sep l).flatten := List.mem_flatten.mpr ⟨part, hp, hc⟩
  rw [flatten_splitOnSep] at this
  have := List.mem_filter.mp this
  refine ⟨this.1, ?_⟩
  have h2 := this.2
  simp only [Bool.not_eq_eq_eq_not, Bool.not_true, beq_eq_false_iff_ne] at h2
  exact h2

theorem splitFirst_eq_none (sep : Char) (l : List Char) :
    splitFirst sep l = none ↔ ∀ c ∈ l, c ≠ sep := by
  induction l with
  | nil => simp [splitFirst]
  | cons c cs ih =>
    simp only [splitFirst]
    split
    · next hc =>
      subst hc
      simp
    · next hc =>
      constructor
      · intro h d hd
        rcases List.mem_cons.mp hd with rfl | hd
        · exact hc
        · rcases hsf : splitFirst sep cs with _ | ⟨k, v⟩
          · exact (ih.mp hsf) d hd
          · rw [hsf] at h; simp at h
      · intro h
        have : splitFirst sep cs = none := ih.mpr (fun d hd => h d (List.mem_cons_of_mem _ hd))
        rw [this]

/-! ## Lemmas about the ASCII casing model -/

theorem asciiLowerChar_ne_underscore (c : Char) (hc : c ≠ '_') :
    asciiLowerChar c ≠ '_' := by
  unfold asciiLowerChar
  cases hf : caseTable.find? (fun p => p.1 = c) with
  | none => exact hc
  | some p =>
    have hp : p ∈ caseTable := List.mem_of_find?_eq_some hf
    have : ∀ q ∈ caseTable, q.2 ≠ '_' := by decide
    exact this p hp

theorem asciiUpperChar_ne_underscore (c : Char) (hc : c ≠ '_') :
    asciiUpperChar c ≠ '_' := by
  unfold asciiUpperChar
  cases hf : caseTable.find? (fun p => p.2 = c) with
  | none => exact hc
  | some p =>
    have hp : p ∈ caseTable := List.mem_of_find?_eq_some hf
    have : ∀ q ∈ caseTable, q.1 ≠ '_' := by decide
    exact this p hp

theorem titleStep_ne_underscore (st : TState) (c : Char) (hc : c ≠ '_') :
    titleStep st c ≠ '_' := by
  unfold titleStep
  split
  · cases st
    · exact asciiUpperChar_ne_underscore c hc
    · exact asciiUpperChar_ne_underscore c hc
    · exact asciiLowerChar_ne_underscore c hc
  · exact hc

theorem titleAsciiGo_no_underscore (l : List Char) :
    ∀ st, (∀ c ∈ l, c ≠ '_') → '_' ∉ titleAsciiGo st l := by
  induction l with
  | nil => intro st _ h; simp [titleAsciiGo] at h
  | cons a as ih =>
    intro st hl h
    simp only [titleAsciiGo] at h
    rcases List.mem_cons.mp h with h1 | h1
    · exact titleStep_ne_underscore st a (hl a (List.mem_cons_self a as)) h1.symm
    · exact ih _ (fun c hc => hl c (List.mem_cons_of_mem _ hc)) h1

theorem titleAsciiGo_length (l : List Char) : ∀ st, (titleAsciiGo st l).length = l.length := by
  induction l with
  | nil => intro st; rfl
  | cons c cs ih => intro st; simp [titleAsciiGo, ih]

/-- A character is lower-case when it is the lower-case member of some
pair of the case table. -/
def IsLowerAscii (c : Char) : Prop := ∃ p ∈ caseTable, c = p.2

theorem asciiLowerChar_isLower (c : Char) (hc : isAsciiAlpha c = true) :
    IsLowerAscii (asciiLowerChar c) := by
  have h := List.any_eq_true.mp hc
  obtain ⟨p, hp, hpc⟩ := h
  have hfacts : ∀ q ∈ caseTable,
      asciiLowerChar q.1 = q.2 ∧ asciiLowerChar q.2 = q.2 := by decide
  rcases Bool.or_eq_true _ _ |>.mp hpc with h1 | h1
  · have : p.1 = c := by exact_mod_cast of_decide_eq_true h1
    exact ⟨p, hp, by rw [← this, (hfacts p hp).1]⟩
  · have : p.2 = c := by exact_mod_cast of_decide_eq_true h1
    exact ⟨p, hp, by rw [← this, (hfacts p hp).2]⟩

theorem isLower_alpha (c : Char) (hc : IsLowerAscii c) : isAsciiAlpha c = true := by
  obtain ⟨p, hp, rfl⟩ := hc
  have : ∀ q ∈ caseTable, isAsciiAlpha q.2 = true := by decide
  exact this p hp

theorem asciiLowerChar_isLower_id (c : Char) (hc : IsLowerAscii c) :
    asciiLowerChar c = c := by
  obtain ⟨p, hp, rfl⟩ := hc
  have : ∀ q ∈ caseTable, asciiLowerChar q.2 = q.2 := by decide
  exact this p hp

/-- On a run of lower-case letters the title caser in state `done` is
the identity. -/
theorem titleAsciiGo_done_lower (l : List Char) (hl : ∀ c ∈ l, IsLowerAscii c) :
    titleAsciiGo .done l = l := by
  induction l with
  | nil => rfl
  | cons a as ih =>
    have ha : IsLowerAscii a := hl a (List.mem_cons_self a as)
    have halpha : isAsciiAlpha a = true := isLower_alpha a ha
    simp only [titleAsciiGo, titleStep, titleNext, halpha, if_pos]
    rw [asciiLowerChar_isLower_id a ha]
    rw [ih (fun c hc => hl c (List.mem_cons_of_mem _ hc))]

/-- On a token consisting purely of ASCII letters, the title caser after
lower-casing agrees with the spec's capitalize-the-first-character
formula. -/
theorem titleAsciiGo_out_alpha (part : List Char)
    (hp : ∀ c ∈ part, isAsciiAlpha c = true) :
    titleAsciiGo .out (asciiLower part) = capFirst (asciiLower part) := by
  cases part with
  | nil => rfl
  | cons a as =>
    have ha : isAsciiAlpha a = true := hp a (List.mem_cons_self a as)
    have hla : IsLowerAscii (asciiLowerChar a) := asciiLowerChar_isLower a ha
    have hlalpha : isAsciiAlpha (asciiLowerChar a) = true := isLower_alpha _ hla
    simp only [asciiLower, List.map_cons, titleAsciiGo, titleStep, titleNext,
      hlalpha, if_pos, capFirst]
    rw [titleAsciiGo_done_lower]
    intro c hc
    obtain ⟨d, hd, rfl⟩ := List.mem_map.mp hc
    exact asciiLowerChar_isLower d (hp d (List.mem_cons_of_mem _ hd))

/-- Characters of the underscore-split parts of `s` are non-underscore
characters of `s`. -/
theorem toCamelCase_no_underscore (s : String) : '_' ∉ (toCamelCase s).data := by
  intro h
  simp only [toCamelCase, String.data] at h
  obtain ⟨part, hpart, hmem⟩ := List.mem_flatten.mp h
  obtain ⟨orig, horig, rfl⟩ := List.mem_map.mp hpart
  refine titleAsciiGo_no_underscore (asciiLower orig) .out ?_ hmem
  intro c hc
  obtain ⟨d, hd, rfl⟩ := List.mem_map.mp hc
  have hne : d ≠ '_' := (mem_of_mem_splitOnSep '_' s.data orig horig d hd).2
  exact asciiLowerChar_ne_underscore d hne

/-- The Name Formatter preserves the number of non-underscore
characters. -/
theorem toCamelCase_length (s : String) :
    (toCamelCase s).data.length = (s.data.filter (fun c => !(c == '_'))).length := by
  simp only [toCamelCase, String.data]
  rw [← flatten_splitOnSep '_' s.data]
  generalize splitOnSep '_' s.data = parts
  induction parts with
  | nil => rfl
  | cons r rs ih =>
    simp only [List.map_cons, List.flatten_cons, List.length_append,
      titleAsciiGo_length, asciiLower, List.length_map]
    simp only [asciiLower] at ih
    omega

/-- A key containing any non-underscore character has a non-empty
camel-cased identifier. -/
theorem toCamelCase_ne_empty (k : String) (hk : ∃ c ∈ k.data, c ≠ '_') :
    toCamelCase k ≠ "" := by
  intro h
  have hlen := toCamelCase_length k
  rw [h] at hlen
  obtain ⟨c, hc, hne⟩ := hk
  have : c ∈ k.data.filter (fun c => !(c == '_')) :=
    List.mem_filter.mpr ⟨hc, by simp [hne]⟩
  have hpos : 0 < (k.data.filter (fun c => !(c == '_'))).length :=
    List.length_pos.mpr (List.ne_nil_of_mem this)
  simp at hlen
  omega

/-- On inputs made of underscores and ASCII letters the Name Formatter
agrees with the spec's formula. -/
theorem toCamelCase_eq_camelSpec (s : String)
    (hs : ∀ c ∈ s.data, c = '_' ∨ isAsciiAlpha c = true) :
    toCamelCase s = camelSpec s := by
  simp only [toCamelCase, camelSpec]
  congr 1
  have hmap :
      (splitOnSep '_' s.data).map (fun part => titleAsciiGo .out (asciiLower part)) =
        (splitOnSep '_' s.data).map (fun part => capFirst (asciiLower part)) := by
    apply List.map_congr_left
    intro part hpart
    apply titleAsciiGo_out_alpha
    intro c hc
    obtain ⟨hmem, hne⟩ := mem_of_mem_splitOnSep '_' s.data part hpart c hc
    rcases hs c hmem with h1 | h1
    · exact absurd h1 hne
    · exact h1
  rw [hmap]

/-! ## Lemmas about the Struct-Field Synthesizer -/

theorem envLineField_of_none (line : String)
    (h : splitFirst '=' line.data = none) : envLineField line = "" := by
  simp [envLineField, splitN2, h]

theorem envLineField_of_some (line : String) (k v : List Char)
    (h : splitFirst '=' line.data = some (k, v)) :
    envLineField line = fieldDeclFor (String.mk k) := by
  simp [envLineField, splitN2, h]

theorem foldl_envLineField (lines : List String) (a : String) :
    lines.foldl (fun sb line => sb ++ envLineField line) a =
      a ++ concatAll (lines.map envLineField) := by
  induction lines generalizing a with
  | nil => simp [concatAll]
  | cons l ls ih =>
    simp only [List.foldl_cons, List.map_cons, concatAll, ih,
      String.append_assoc]

theorem concatAll_envLineField (lines : List String) :
    concatAll (lines.map envLineField) = concatAll ((envKeys lines).map fieldDeclFor) := by
  induction lines with
  | nil => rfl
  | cons l ls ih =>
    rcases hsf : splitFirst '=' l.data with _ | ⟨k, v⟩
    · simp only [List.map_cons, concatAll, envKeys, List.filterMap_cons, hsf,
        Option.map_none']
      rw [envLineField_of_none l hsf, ih]
      simp [envKeys]
    · simp only [List.map_cons, concatAll, envKeys, List.filterMap_cons, hsf,
        Option.map_some']
      rw [envLineField_of_some l k v hsf, ih]
      simp [envKeys, concatAll]

/-! ## Claim theorems for the Name Formatter and the synthesizer -/

/-- Claim C3, counterexample to the claim as stated: on the input
"a b" the code's Name Formatter (which title-cases every word of the
token, as `cases.Title` does) yields "A B", while the claim's formula of
splitting on underscores, lower-casing each token and capitalizing only
the token's first letter yields "A b".  So `toCamelCase` is not the
claimed formula on every input string. -/
theorem claim_C3_counterexample :
    toCamelCase "a b" = "A B" ∧ camelSpec "a b" = "A b" ∧
      toCamelCase "a b" ≠ camelSpec "a b" := by decide

/-- Claim C3, amended: on inputs consisting of underscores and ASCII
letters (in particular every usual environment-variable name) the Name
Formatter equals the claimed split/lower-case/capitalize-first/concat
formula; on every input the output contains no underscore and the empty
input yields the empty output; and the claimed particular values hold. -/
theorem claim_C3_toCamelCase :
    (∀ s : String, (∀ c ∈ s.data, c = '_' ∨ isAsciiAlpha c = true) →
        toCamelCase s = camelSpec s) ∧
      (∀ s : String, '_' ∉ (toCamelCase s).data) ∧
      toCamelCase "sample_env_var" = "SampleEnvVar" ∧
      toCamelCase "a" = "A" ∧ toCamelCase "" = "" :=
  ⟨fun s hs => toCamelCase_eq_camelSpec s hs, fun s => toCamelCase_no_underscore s,
    by decide, by decide, by decide⟩

/-- Claim C3 witness: the amended equality applied at the concrete input
"sample_env_var". -/
theorem claim_C3_witness :
    toCamelCase "sample_env_var" = camelSpec "sample_env_var" :=
  claim_C3_toCamelCase.1 "sample_env_var" (by decide)

/-- Claim C2, counterexample to the claim as stated: the line "a=b=c"
does not contain exactly one `=` (it contains two), yet the synthesizer
does emit a field for it, keyed by the text before the first `=`.  The
loop skips a line only when `strings.SplitN(line, "=", 2)` does not
yield two parts, i.e. only when the line contains no `=` at all. -/
theorem claim_C2_counterexample :
    ("a=b=c".data.filter (fun c => c == '=')).length = 2 ∧
      envLineField "a=b=c" = fieldDeclFor "a" ∧
      fieldDeclFor "a" ≠ "" ∧
      (generateStructFromEnvFile ["a=b=c"] none).1 =
        structHeaderText ++ fieldDeclFor "a" ++ "\x7d\n" := by decide

/-- Claim C2, amended: a line containing no `=` at all is silently
skipped (no field, no error); and on the lines ["invalid", "var=value"]
exactly one field appears, with identifier `Var`. -/
theorem claim_C2_skip_invalid :
    (∀ line : String, (∀ c ∈ line.data, c ≠ '=') → envLineField line = "") ∧
      (generateStructFromEnvFile ["invalid", "var=value"] none).1 =
        structHeaderText ++ fieldDeclFor "var" ++ "\x7d\n" ∧
      toCamelCase "var" = "Var" ∧
      (generateStructFromEnvFile ["invalid", "var=value"] none).2 = none := by
  refine ⟨?_, by decide, by decide, by decide⟩
  intro line h
  exact envLineField_of_none line ((splitFirst_eq_none '=' line.data).mpr h)

/-- Claim C2 witness: the amended skip property applied at the concrete
line "invalid". -/
theorem claim_C2_witness : envLineField "invalid" = "" :=
  claim_C2_skip_invalid.1 "invalid" (by decide)

/-- Claim C4, counterexample to the claim as stated: the line "=x" is
accepted by the synthesizer (its split yields two parts) and produces a
field whose source key is empty, so its identifier `toCamelCase ""` is
empty, refuting "every field emitted has a non-empty identifier". -/
theorem claim_C4_counterexample :
    envLineField "=x" = fieldDeclFor "" ∧ toCamelCase "" = "" ∧
      envLineField "=x" ≠ "" ∧
      (generateStructFromEnvFile ["=x"] none).1 =
        structHeaderText ++ fieldDeclFor "" ++ "\x7d\n" := by decide

/-- Claim C4, amended: the field emitted for a line is a function of the
line's source key alone (the identifier is `toCamelCase` of the key, so
two lines with the same key always yield the same field declaration),
and the identifier is non-empty whenever the key contains any character
other than `_` — the original claim fails only for keys made entirely of
underscores, such as the empty key of a line starting with `=`. -/
theorem claim_C4_identifier :
    (∀ (line : String) (k v : List Char), splitFirst '=' line.data = some (k, v) →
        envLineField line = fieldDeclFor (String.mk k)) ∧
      (∀ (l1 l2 : String) (k v1 v2 : List Char),
        splitFirst '=' l1.data = some (k, v1) → splitFirst '=' l2.data = some (k, v2) →
        envLineField l1 = envLineField l2) ∧
      (∀ k : String, (∃ c ∈ k.data, c ≠ '_') → toCamelCase k ≠ "") := by
  refine ⟨fun line k v h => envLineField_of_some line k v h, ?_, toCamelCase_ne_empty⟩
  intro l1 l2 k v1 v2 h1 h2
  rw [envLineField_of_some l1 k v1 h1, envLineField_of_some l2 k v2 h2]

/-- Claim C4 witness: the amended determinism and non-emptiness applied
at the concrete lines "var=1" and "var=2" with key "var". -/
theorem claim_C4_witness :
    envLineField "var=1" = envLineField "var=2" ∧ toCamelCase "var" ≠ "" :=
  ⟨claim_C4_identifier.2.1 "var=1" "var=2" "var".data "1".data "2".data
      (by decide) (by decide),
    claim_C4_identifier.2.2 "var" ⟨'v', by decide, by decide⟩⟩

/-- Claim C7, confirmed: the synthesizer fails exactly when the line
reader's `Err()` is non-nil after the scan loop exhausts, and the error
it returns is that fault wrapped with the "scanning" context; with a nil
`Err()` it always succeeds, whatever the lines were. -/
theorem claim_C7_scan_error (lines : List String) (scanErr : Option GoError) :
    (generateStructFromEnvFile lines scanErr).2 =
        Option.map (wrapErr "scanning") scanErr ∧
      ((generateStructFromEnvFile lines scanErr).2 = none ↔ scanErr = none) := by
  cases scanErr <;> simp [generateStructFromEnvFile]

/-- Claim C8, confirmed: on success the synthesizer's output is exactly
the fixed header comment block, then one field declaration per line
containing an `=` — each built from the key before the first `=`, its
camel-cased identifier, the placeholder type and the required `envconfig`
annotation — then the closing brace. -/
theorem claim_C8_output_shape (lines : List String) :
    generateStructFromEnvFile lines none =
      (structHeaderText ++ concatAll ((envKeys lines).map fieldDeclFor) ++ "\x7d\n",
        none) := by
  simp only [generateStructFromEnvFile]
  rw [foldl_envLineField, concatAll_envLineField]

/-! ## Lemmas about the generator pipeline -/

theorem writeMainAndFormat_val (p : Providers) (packageName structText : String)
    (preTrace : List Event)
    (h : (writeMainAndFormat p packageName structText preTrace).err = none) :
    (writeMainAndFormat p packageName structText preTrace).val =
      packageName ++ "/" ++ configReadFileName := by
  simp only [writeMainAndFormat] at h ⊢
  repeat' split at h
  all_goals simp_all

theorem generateConfigReaderMainFile_val (p : Providers) (packageName envFilePath : String)
    (h : (generateConfigReaderMainFile p packageName envFilePath).err = none) :
    (generateConfigReaderMainFile p packageName envFilePath).val =
      packageName ++ "/" ++ configReadFileName := by
  simp only [generateConfigReaderMainFile] at h ⊢
  repeat' split at h
  all_goals simp_all [writeMainAndFormat_val]

theorem generateConfigReaderUnitTestFile_val (p : Providers) (packageName : String)
    (h : (generateConfigReaderUnitTestFile p packageName).err = none) :
    (generateConfigReaderUnitTestFile p packageName).val =
      packageName ++ "/" ++ configReaderUnitTestFileName := by
  simp only [generateConfigReaderUnitTestFile] at h ⊢
  repeat' split at h
  all_goals simp_all

theorem generateConfigReaderFiles_val (p : Providers) (packageName : String)
    (h : (generateConfigReaderFiles p packageName).err = none) :
    (generateConfigReaderFiles p packageName).val =
      [packageName ++ "/" ++ configReadFileName,
        packageName ++ "/" ++ configReaderUnitTestFileName, envFileName] := by
  simp only [generateConfigReaderFiles] at h ⊢
  repeat' split at h
  all_goals
    simp_all [generateConfigReaderMainFile_val, generateConfigReaderUnitTestFile_val]

theorem generateConfigReaderFilesFromEnvFile_val (p : Providers)
    (packageName envFilePath : String)
    (h : (generateConfigReaderFilesFromEnvFile p packageName envFilePath).err = none) :
    (generateConfigReaderFilesFromEnvFile p packageName envFilePath).val =
      [packageName ++ "/" ++ configReadFileName,
        packageName ++ "/" ++ configReaderUnitTestFileName] := by
  simp only [generateConfigReaderFilesFromEnvFile] at h ⊢
  repeat' split at h
  all_goals
    simp_all [generateConfigReaderMainFile_val, generateConfigReaderUnitTestFile_val]

/-! ## Claim theorems for the generator -/

/-- Claim C1, confirmed: whenever `GenerateConfigPackage` returns
without error its path list is exactly the three paths main source, test
source, sample environment file, in that order; and whenever
`GenerateConfigPackageFromEnvFile` returns without error its path list
is exactly the two paths main source, test source, in that order, with
no sample environment file path. -/
theorem claim_C1_paths (p : Providers) (packageName envFilePath : String) :
    ((GenerateConfigPackage p packageName).err = none →
      (GenerateConfigPackage p packageName).val =
        [packageName ++ "/" ++ configReadFileName,
          packageName ++ "/" ++ configReaderUnitTestFileName, envFileName]) ∧
    ((GenerateConfigPackageFromEnvFile p packageName envFilePath).err = none →
      (GenerateConfigPackageFromEnvFile p packageName envFilePath).val =
        [packageName ++ "/" ++ configReadFileName,
          packageName ++ "/" ++ configReaderUnitTestFileName]) := by
  constructor
  · intro h
    simp only [GenerateConfigPackage] at h ⊢
    split at h
    · simp_all
    · rename_i hr
      simp only [hr]
      exact generateConfigReaderFiles_val p packageName hr
  · intro h
    simp only [GenerateConfigPackageFromEnvFile] at h ⊢
    split at h
    · simp_all
    · rename_i hr
      simp only [hr]
      exact generateConfigReaderFilesFromEnvFile_val p packageName envFilePath hr

/-- Claim C1 witness: both operations evaluated on providers on which
every step succeeds, with package name "config". -/
theorem claim_C1_witness :
    (GenerateConfigPackage happyProviders "config").val =
        ["config/config.go", "config/config_test.go", ".env"] ∧
      (GenerateConfigPackageFromEnvFile happyProviders "config" ".env-local").val =
        ["config/config.go", "config/config_test.go"] := by
  constructor
  · rw [(claim_C1_paths happyProviders "config" ".env-local").1 (by decide)]
    decide
  · rw [(claim_C1_paths happyProviders "config" ".env-local").2 (by decide)]
    decide

/-- Claim C5, confirmed: when directory creation fails with an error
that is not an "already exists" error, both generation operations return
exactly the wrapped directory-creation error with a nil path list and a
trace containing no file creation or write; when the error is an
"already exists" error it is ignored and generation proceeds exactly as
it would with a succeeding `Mkdir`. -/
theorem claim_C5_mkdir (p : Providers) (packageName envFilePath : String) (e : GoError)
    (h : p.fsProvider.Mkdir packageName = some e) :
    (e.isExist = false →
      generateConfigReaderFiles p packageName =
          ⟨[], some (wrapErr ("creating dir " ++ packageName) e),
            [.mkdirCall packageName]⟩ ∧
        generateConfigReaderFilesFromEnvFile p packageName envFilePath =
          ⟨[], some (wrapErr ("creating dir " ++ packageName) e),
            [.mkdirCall packageName]⟩ ∧
        ((generateConfigReaderFiles p packageName).trace.all
          (fun ev => !ev.isFileWrite)) = true) ∧
    (e.isExist = true →
      generateConfigReaderFiles p packageName =
          generateConfigReaderFiles (setMkdirOk p) packageName ∧
        generateConfigReaderFilesFromEnvFile p packageName envFilePath =
          generateConfigReaderFilesFromEnvFile (setMkdirOk p) packageName envFilePath) := by
  constructor
  · intro hex
    have h1 : generateConfigReaderFiles p packageName =
        ⟨[], some (wrapErr ("creating dir " ++ packageName) e), [.mkdirCall packageName]⟩ := by
      simp [generateConfigReaderFiles, h, hex]
    have h2 : generateConfigReaderFilesFromEnvFile p packageName envFilePath =
        ⟨[], some (wrapErr ("creating dir " ++ packageName) e), [.mkdirCall packageName]⟩ := by
      simp [generateConfigReaderFilesFromEnvFile, h, hex]
    refine ⟨h1, h2, ?_⟩
    rw [h1]
    simp [Event.isFileWrite]
  · intro hex
    constructor
    · simp only [generateConfigReaderFiles]
      rw [h]
      simp only [hex, if_true, setMkdirOk]
      rfl
    · simp only [generateConfigReaderFilesFromEnvFile]
      rw [h]
      simp only [hex, if_true, setMkdirOk]
      rfl

/-- Claim C5 witness: the failing branch on a plain mkdir error and the
proceeding branch on an "already exists" mkdir error, both with package
name "config". -/
theorem claim_C5_witness :
    generateConfigReaderFiles mkdirFailProviders "config" =
        ⟨[], some (wrapErr ("creating dir " ++ "config") ⟨"mkdir error", false⟩),
          [.mkdirCall "config"]⟩ ∧
      generateConfigReaderFiles mkdirExistProviders "config" =
        generateConfigReaderFiles (setMkdirOk mkdirExistProviders) "config" :=
  ⟨((claim_C5_mkdir mkdirFailProviders "config" ".env-local"
      ⟨"mkdir error", false⟩ rfl).1 rfl).1,
    ((claim_C5_mkdir mkdirExistProviders "config" ".env-local"
      ⟨"dir exists", true⟩ rfl).2 rfl).1⟩

/-- Claim C6, confirmed: when opening the source environment file fails,
`generateConfigStructFromEnvFile` immediately returns the open error
wrapped with the env-file path, and its trace records no scan of the
line source — synthesis never starts. -/
theorem claim_C6_open_error (p : Providers) (envFilePath : String) (e : GoError)
    (h : p.fsProvider.Open envFilePath = some e) :
    generateConfigStructFromEnvFile p envFilePath =
        ⟨"", some (wrapErr ("opening env file " ++ envFilePath) e),
          [.openFile envFilePath]⟩ ∧
      Event.scanLine ∉ (generateConfigStructFromEnvFile p envFilePath).trace := by
  have h1 : generateConfigStructFromEnvFile p envFilePath =
      ⟨"", some (wrapErr ("opening env file " ++ envFilePath) e),
        [.openFile envFilePath]⟩ := by
    simp [generateConfigStructFromEnvFile, h]
  refine ⟨h1, ?_⟩
  rw [h1]
  simp

/-- Claim C6 witness: the open-failure behaviour evaluated on providers
whose `Open` fails, at path ".env-local". -/
theorem claim_C6_witness :
    generateConfigStructFromEnvFile openFailProviders ".env-local" =
        ⟨"", some (wrapErr ("opening env file " ++ ".env-local") ⟨"open error", false⟩),
          [.openFile ".env-local"]⟩ ∧
      Event.scanLine ∉ (generateConfigStructFromEnvFile openFailProviders ".env-local").trace :=
  claim_C6_open_error openFailProviders ".env-local" ⟨"open error", false⟩ rfl

/-- Claim C10, confirmed: whenever either public operation returns a
non-nil error its path list is nil — the error branches of both
operations return nil, never the partial list accumulated so far. -/
theorem claim_C10_nil_on_error (p : Providers) (packageName envFilePath : String)
    (e : GoError) :
    ((GenerateConfigPackage p packageName).err = some e →
      (GenerateConfigPackage p packageName).val = []) ∧
    ((GenerateConfigPackageFromEnvFile p packageName envFilePath).err = some e →
      (GenerateConfigPackageFromEnvFile p packageName envFilePath).val = []) := by
  constructor
  · intro h
    simp only [GenerateConfigPackage] at h ⊢
    split at h <;> simp_all
  · intro h
    simp only [GenerateConfigPackageFromEnvFile] at h ⊢
    split at h <;> simp_all

/-- Claim C10 witness: both operations on providers whose directory
creation fails return a nil path list. -/
theorem claim_C10_witness :
    (GenerateConfigPackage mkdirFailProviders "config").val = [] ∧
      (GenerateConfigPackageFromEnvFile mkdirFailProviders "config" ".env-local").val = [] :=
  ⟨(claim_C10_nil_on_error mkdirFailProviders "config" ".env-local"
      ⟨"creating dir config: mkdir error", false⟩).1 (by decide),
    (claim_C10_nil_on_error mkdirFailProviders "config" ".env-local"
      ⟨"creating dir config: mkdir error", false⟩).2 (by decide)⟩

end Cfg
